import Mathlib

/-!
# Scrollmore: the full-screen scroller (`scroll.cpp`) and the pager (`more.cpp`)

A shallow embedding of the scroll-state engine of both programs.

* C++ `int` values are mathematical integers; every `int` operation reduces its
  result into the 32-bit two's-complement range (`wrap_int`), so that a result
  which does not fit is visible in the model instead of being silently exact.
  For a result that does fit this is the exact value; for one that does not,
  it is the value two's-complement hardware produces (the C++ standard leaves
  signed overflow undefined).
* `std::max` and `std::min` are written out the way the standard defines them.
* The terminal (`screen_->dimy()`, `console_height()`) and the keyboard
  (`get_char()`) are inputs of the model.
-/

namespace Scrollmore

/-! ## `int` arithmetic -/

/-- Smallest value of a 32-bit `int`. -/
def INT_MIN : Int := -2147483648

/-- Largest value of a 32-bit `int`. -/
def INT_MAX : Int := 2147483647

/-- Reduction of a mathematical integer into the range of a 32-bit `int`. -/
@[irreducible]
def wrap_int (x : Int) : Int := (x + 2147483648) % 4294967296 - 2147483648

/-- The `int` sum `a + b`. -/
def int_add (a b : Int) : Int := wrap_int (a + b)

/-- The `int` difference `a - b`. -/
def int_sub (a b : Int) : Int := wrap_int (a - b)

/-- The `int` product `a * b`. -/
def int_mul (a b : Int) : Int := wrap_int (a * b)

/-- The `int` quotient `a / b`, which truncates toward zero. -/
def int_div (a b : Int) : Int := wrap_int (Int.tdiv a b)

/-- The conversion `(int)v.size()` of a container size: a size up to `INT_MAX` is
kept, a larger one is reduced into the range of `int`. -/
def size_to_int (n : Nat) : Int := if n ≤ 2147483647 then (n : Int) else wrap_int (n : Int)

/-- The function `std::max(a, b)`: `(a < b) ? b : a`. -/
def std_max (a b : Int) : Int := if a < b then b else a

/-- The function `std::min(a, b)`: `(b < a) ? b : a`. -/
def std_min (a b : Int) : Int := if b < a then b else a

/-- The function `std::clamp(v, lo, hi)`: `(v < lo) ? lo : (hi < v) ? hi : v`. -/
def std_clamp (v lo hi : Int) : Int := if v < lo then lo else if hi < v then hi else v

/-! ## `scroll.cpp`: the `ScrollFrame` component -/

/-- The events the `CatchEvent` handler of `ScrollFrame` distinguishes; `Other`
stands for every event the handler does not compare against. -/
inductive Event where
  | ArrowDown
  | ArrowUp
  | PageDown
  | PageUp
  | Home
  | End
  | Character (c : Char)
  | Escape
  | Other
  deriving DecidableEq

/-- Data members of `ScrollFrame` that the handler and `Render` read or write. -/
structure ScrollFrame where
  /-- Current scroll position. -/
  scroll_ : Int
  /-- Number of lines reserved for the tooltip. -/
  lines_sub_ : Int
  /-- Lines to display in the scroller. -/
  lines_ : List String
  deriving DecidableEq

/-- The constructor: `scroll_ = 0`. -/
def ScrollFrame.init (lines : List String) (lines_sub : Int) : ScrollFrame :=
  { scroll_ := 0, lines_sub_ := lines_sub, lines_ := lines }

/-- The local `window_size` of the handler: `std::max(1, screen_->dimy() - lines_sub_)`. -/
def window_size (dimy lines_sub : Int) : Int := std_max 1 (int_sub dimy lines_sub)

/-- The local `max_scroll`: `std::max(0, (int)lines_.size() - window_size)`. -/
def max_scroll (total_height window_size : Int) : Int := std_max 0 (int_sub total_height window_size)

/-- What one call of the event handler leaves behind. -/
structure Handled where
  /-- The component after the call. -/
  frame : ScrollFrame
  /-- The value the handler returns (the event was consumed). -/
  consumed : Bool
  /-- Whether `on_quit_` was reached. -/
  quit : Bool
  deriving DecidableEq

/-- The lambda passed to `ftxui::CatchEvent` in the constructor of `ScrollFrame`;
`dimy` is the value `screen_->dimy()` returns during this call. The chain of
`if (event == ...)` tests is a case distinction on the event. -/
def ScrollFrame.OnEvent (f : ScrollFrame) (dimy : Int) (event : Event) : Handled :=
  let window_size := std_max 1 (int_sub dimy f.lines_sub_)
  let max_scroll := std_max 0 (int_sub (size_to_int f.lines_.length) window_size)
  match event with
  | Event.ArrowDown =>
    ⟨{ f with scroll_ := std_min (int_add f.scroll_ 1) max_scroll }, true, false⟩
  | Event.ArrowUp =>
    ⟨{ f with scroll_ := std_max (int_sub f.scroll_ 1) 0 }, true, false⟩
  | Event.PageDown =>
    ⟨{ f with scroll_ := std_min (int_add f.scroll_ window_size) max_scroll }, true, false⟩
  | Event.PageUp =>
    ⟨{ f with scroll_ := std_max (int_sub f.scroll_ window_size) 0 }, true, false⟩
  | Event.Home =>
    ⟨{ f with scroll_ := 0 }, true, false⟩
  | Event.End =>
    ⟨{ f with scroll_ := max_scroll }, true, false⟩
  | Event.Character c =>
    if c = 'q' ∨ c = 'Q' then ⟨f, true, true⟩ else ⟨f, false, false⟩
  | Event.Escape => ⟨f, true, true⟩
  | Event.Other => ⟨f, false, false⟩

/-- The position after handling the events of `events` in order, the terminal
height being `dimy` throughout. -/
def ScrollFrame.OnEvents (f : ScrollFrame) (dimy : Int) : List Event → ScrollFrame
  | [] => f
  | e :: es => ScrollFrame.OnEvents (f.OnEvent dimy e).frame dimy es

/-- Decoration of an `ftxui::text` element. -/
inductive Style where
  | plain
  | dim
  | bold_white
  deriving DecidableEq

/-- An `ftxui::text` element together with its decoration. -/
structure Text where
  /-- The characters shown. -/
  text : String
  /-- The decoration applied. -/
  style : Style
  deriving DecidableEq

/-- The lambda `create_highlighted_element` of `Render`. -/
def create_highlighted_element (text : String) (highlight : Bool) : Text :=
  if highlight then ⟨text, Style.bold_white⟩ else ⟨text, Style.dim⟩

/-- The scrollbar thumb size: `std::max(1, window_size * window_size / (3 * std::max(window_size, total_height)))`. -/
def bar_size (window_size total_height : Int) : Int :=
  std_max 1 (int_div (int_mul window_size window_size) (int_mul 3 (std_max window_size total_height)))

/-- The scrollbar thumb position:
`(total_height - window_size == 0) ? 0 : scroll_ * (window_size - bar_size) / (total_height - window_size)`. -/
def bar_position (window_size total_height scroll : Int) : Int :=
  if int_sub total_height window_size = 0 then 0
  else int_div (int_mul scroll (int_sub window_size (bar_size window_size total_height)))
    (int_sub total_height window_size)

/-- The `for` loop of `Render` over `scrollbar_elements`: cell `i` becomes `"|"` for
every `i` with `bar_position ≤ i`, `i < bar_position + bar_size` and `i < bar_height`. -/
def fill_scrollbar (bar_height bar_position bar_size : Int) : List String :=
  (List.range bar_height.toNat).map fun i =>
    if bar_position ≤ (i : Int) ∧ (i : Int) < int_add bar_position bar_size ∧ (i : Int) < bar_height
    then "|" else " "

/-- Assignment `v.front() = x` on a vector known to be non-empty. -/
def set_front (v : List String) (x : String) : List String := v.set 0 x

/-- Assignment `v.back() = x` on a vector known to be non-empty. -/
def set_back (v : List String) (x : String) : List String := v.set (v.length - 1) x

/-- The locals of one call of `ScrollFrame::Render`, in the order they are computed. -/
structure Rendered where
  /-- The local `window_size`. -/
  window_size : Int
  /-- The local `max_scroll`. -/
  max_scroll : Int
  /-- The member `scroll_` after the clamp. -/
  scroll_ : Int
  /-- The range `visible_view`: the lines selected, before any marker is substituted. -/
  visible_view : List String
  /-- The local `show_up_arrow`. -/
  show_up_arrow : Bool
  /-- The local `show_down_arrow`. -/
  show_down_arrow : Bool
  /-- The vector `visible_lines` as it is painted. -/
  visible_lines : List String
  /-- The local `bar_size`. -/
  bar_size : Int
  /-- The local `bar_position`. -/
  bar_position : Int
  /-- The vector `scrollbar_elements` after the loop. -/
  scrollbar_elements : List String
  /-- The children of the `tooltip` box. -/
  tooltip : List Text
  deriving DecidableEq

/-- The method `ScrollFrame::Render`; `dimy` is the value `screen_->dimy()` returns
during this call. -/
def ScrollFrame.Render (f : ScrollFrame) (dimy : Int) : Rendered :=
  let window_size := std_max 1 (int_sub dimy 1)
  let max_scroll := std_max 0 (int_sub (size_to_int f.lines_.length) window_size)
  let scroll := std_clamp f.scroll_ 0 max_scroll
  let visible_view := (f.lines_.drop scroll.toNat).take window_size.toNat
  let show_up_arrow : Bool := decide (scroll > 0)
  let show_down_arrow : Bool := decide (int_add scroll window_size < size_to_int f.lines_.length)
  let visible_lines1 :=
    if show_up_arrow = true ∧ visible_view.length > 1 then set_front visible_view "(more...)"
    else visible_view
  let visible_lines2 :=
    if show_down_arrow = true ∧ visible_lines1.length > 1 then set_back visible_lines1 "(more...)"
    else visible_lines1
  let bar_height := window_size
  let total_height := size_to_int f.lines_.length
  let bar_size := bar_size window_size total_height
  let bar_position := bar_position window_size total_height scroll
  { window_size := window_size
    max_scroll := max_scroll
    scroll_ := scroll
    visible_view := visible_view
    show_up_arrow := show_up_arrow
    show_down_arrow := show_down_arrow
    visible_lines := visible_lines2
    bar_size := bar_size
    bar_position := bar_position
    scrollbar_elements := fill_scrollbar bar_height bar_position bar_size
    tooltip :=
      [ create_highlighted_element "↑" show_up_arrow, ⟨"/", Style.plain⟩,
        create_highlighted_element "↓" show_down_arrow, ⟨": Scroll | ", Style.dim⟩,
        create_highlighted_element "PgUp" show_up_arrow, ⟨"/", Style.plain⟩,
        create_highlighted_element "PgDn" show_down_arrow, ⟨": Scroll Page | ", Style.dim⟩,
        create_highlighted_element "Home" show_up_arrow, ⟨"/", Style.plain⟩,
        create_highlighted_element "End" show_down_arrow, ⟨": Top/Bottom | ", Style.dim⟩,
        create_highlighted_element "Q" true, ⟨"/", Style.plain⟩,
        create_highlighted_element "Esc" true, ⟨": Quit", Style.dim⟩ ] }

/-- Whether the legend entry with the text `entry` is drawn highlighted (bold white). -/
def highlighted (tooltip : List Text) (entry : String) : Bool :=
  tooltip.any fun t => decide (t.text = entry) && decide (t.style = Style.bold_white)

/-! ## `more.cpp`: the pager -/

/-- The enumeration `KeyAction`. -/
inductive KeyAction where
  | LineDown
  | PageDown
  | Quit
  | None
  deriving DecidableEq

/-- The value `getchar()` returns at end of input. -/
def EOF : Int := -1

/-- The lambda `get_char`: the keyboard is the stream `input` of the values that
successive calls return, `pos` counts the calls made so far. -/
def get_char (input : Nat → Int) (pos : Nat) : Int × Nat := (input pos, pos + 1)

/-- The lambda `get_key_action`, POSIX branch. Returns the action and the number
of `get_char` calls made so far. -/
def get_key_action (input : Nat → Int) (pos : Nat) : KeyAction × Nat :=
  let (ch, pos1) := get_char input pos
  if ch = 27 then
    let (next1, pos2) := get_char input pos1
    if next1 = 91 then
      let (next2, pos3) := get_char input pos2
      if next2 = 66 then (KeyAction.LineDown, pos3)
      else (KeyAction.None, pos3)
    else (KeyAction.Quit, pos2)
  else if ch = 13 ∨ ch = 10 then (KeyAction.PageDown, pos1)
  else if ch = 113 ∨ ch = 81 ∨ ch = 27 then (KeyAction.Quit, pos1)
  else (KeyAction.None, pos1)

/-- What the pager writes to standard output, item by item. The number shown
inside the prompt is left out. -/
inductive Output where
  | line (s : String)
  | prompt
  | erase_prompt
  deriving DecidableEq

/-- Where a run of the pager stands. -/
inductive Status where
  | running
  | returned
  | quit
  | awaiting_input
  | out_of_fuel
  deriving DecidableEq

/-- State of `more_pager`. -/
structure Pager where
  /-- The local `current_line`. -/
  current_line : Int
  /-- Everything written so far, in order. -/
  output : List Output
  /-- Number of calls of `get_key_action` that have returned. -/
  decoded : Nat
  /-- Where the run stands. -/
  status : Status
  deriving DecidableEq

/-- The content lines among the items written, in output order. -/
def printed_lines : List Output → List String
  | [] => []
  | Output.line s :: rest => s :: printed_lines rest
  | _ :: rest => printed_lines rest

/-- Output of `lines | drop(current_line) | take(lines_to_show)` through `for_each`. -/
def print_range (lines : List String) (current_line lines_to_show : Int) : List Output :=
  ((lines.drop current_line.toNat).take lines_to_show.toNat).map Output.line

/-- The statement `if (!shown_prompt) { std::cout << prompt; shown_prompt = true; }`. -/
def show_prompt (shown_prompt : Bool) (p : Pager) : Pager :=
  if shown_prompt = false then { p with output := p.output ++ [Output.prompt] } else p

/-- Printing one page: `lines_to_show = std::min(window_size, total_lines - current_line)`,
the `for_each` over `drop(current_line) | take(lines_to_show)`, and the advance
of `current_line` by `lines_to_show`. -/
def print_page (lines : List String) (total_lines window_size : Int) (p : Pager) : Pager :=
  let lines_to_show := std_min window_size (int_sub total_lines p.current_line)
  { p with
    output := p.output ++ print_range lines p.current_line lines_to_show
    current_line := int_add p.current_line lines_to_show }

/-- The body of `case KeyAction::LineDown`. -/
def line_down (lines : List String) (total_lines : Int) (p : Pager) : Pager :=
  let p1 : Pager := { p with output := p.output ++ [Output.erase_prompt] }
  if p1.current_line < total_lines then
    { p1 with
      output := p1.output ++ [Output.line (lines.getD p1.current_line.toNat "")]
      current_line := int_add p1.current_line 1 }
  else p1

/-- The body of `case KeyAction::PageDown`. -/
def page_down (lines : List String) (total_lines window_size : Int) (p : Pager) : Pager :=
  print_page lines total_lines window_size { p with output := p.output ++ [Output.erase_prompt] }

/-- The body of `case KeyAction::Quit`. -/
def quit_key (p : Pager) : Pager :=
  { p with output := p.output ++ [Output.erase_prompt], status := Status.quit }

/-- The two inner loops of `more_pager`, entered at the top of the body of
`while (!valid_input)`. `keys` are the values the coming calls of
`get_key_action` return; when they run out the pager blocks in `get_char`.
Returns the state and the keys not yet consumed; status `running` means the
loop `while (current_line < total_lines)` was left through its condition. -/
def input_loop (lines : List String) (total_lines window_size : Int) :
    List KeyAction → Bool → Pager → Pager × List KeyAction
  | [], shown_prompt, p =>
    ({ show_prompt shown_prompt p with status := Status.awaiting_input }, [])
  | KeyAction.LineDown :: ks, shown_prompt, p =>
    let p1 := show_prompt shown_prompt p
    let p2 := line_down lines total_lines { p1 with decoded := p1.decoded + 1 }
    if p2.current_line < total_lines then input_loop lines total_lines window_size ks false p2
    else (p2, ks)
  | KeyAction.PageDown :: ks, shown_prompt, p =>
    let p1 := show_prompt shown_prompt p
    let p2 := page_down lines total_lines window_size { p1 with decoded := p1.decoded + 1 }
    if p2.current_line < total_lines then input_loop lines total_lines window_size ks false p2
    else (p2, ks)
  | KeyAction.Quit :: ks, shown_prompt, p =>
    let p1 := show_prompt shown_prompt p
    (quit_key { p1 with decoded := p1.decoded + 1 }, ks)
  | KeyAction.None :: ks, shown_prompt, p =>
    let p1 := show_prompt shown_prompt p
    input_loop lines total_lines window_size ks true { p1 with decoded := p1.decoded + 1 }

/-- The outer loop `while (current_line < total_lines)` of `more_pager`.
`console_height` gives the height of the terminal as a function of the number
of key actions decoded so far, so that a call of the lambda `console_height`
reads it at the current count. `fuel` bounds the number of iterations. -/
def pager_loop (lines : List String) (lines_sub : Int) (console_height : Nat → Int)
    (total_lines : Int) : Nat → List KeyAction → Pager → Pager
  | 0, _, p =>
    if p.current_line < total_lines then { p with status := Status.out_of_fuel }
    else { p with status := Status.returned }
  | fuel + 1, keys, p =>
    if p.current_line < total_lines then
      let window_size := std_max 1 (int_sub (console_height p.decoded) lines_sub)
      let p1 := print_page lines total_lines window_size p
      let r : Pager × List KeyAction :=
        if p1.current_line < total_lines then input_loop lines total_lines window_size keys false p1
        else (p1, keys)
      if r.1.status = Status.running then
        pager_loop lines lines_sub console_height total_lines fuel r.2 r.1
      else r.1
    else { p with status := Status.returned }

/-- The function `more_pager(lines, lines_sub)`, run against the terminal heights
`console_height` and the decoded key actions `keys`. Every iteration of the
outer loop prints at least one line, so `lines.length` iterations are enough. -/
def more_pager (lines : List String) (lines_sub : Int) (console_height : Nat → Int)
    (keys : List KeyAction) : Pager :=
  pager_loop lines lines_sub console_height (size_to_int lines.length) lines.length keys
    { current_line := 0, output := [], decoded := 0, status := Status.running }

/-- The page size the pager would use for a page printed while the terminal is
`height` rows high: `std::max(1, height - lines_sub)`. -/
def page_size (height lines_sub : Int) : Int := std_max 1 (int_sub height lines_sub)

/-- The stream of `get_char` values read from the bytes `bytes`, followed by
end of input. -/
def stream_of (bytes : List Int) : Nat → Int := fun i => bytes.getD i EOF

/-- Invariant of the pager loops: `current_line` is a valid index and the content
lines written so far are the first `current_line` lines of the content. -/
def PagerInv (lines : List String) (p : Pager) : Prop :=
  0 ≤ p.current_line ∧ p.current_line ≤ (lines.length : Int) ∧
    printed_lines p.output = lines.take p.current_line.toNat

/-- One pass through the body of the outer loop of `more_pager`, with no further
iteration: the first page at the height sampled now, then the inner loops. -/
def pager_once (lines : List String) (lines_sub : Int) (console_height : Nat → Int)
    (total_lines : Int) (keys : List KeyAction) (p : Pager) : Pager :=
  if p.current_line < total_lines then
    let window_size := std_max 1 (int_sub (console_height p.decoded) lines_sub)
    let p1 := print_page lines total_lines window_size p
    let r : Pager × List KeyAction :=
      if p1.current_line < total_lines then input_loop lines total_lines window_size keys false p1
      else (p1, keys)
    if r.1.status = Status.running then { r.1 with status := Status.returned } else r.1
  else { p with status := Status.returned }

/-- Ten lines of content. -/
def ten_lines : List String := ["l0", "l1", "l2", "l3", "l4", "l5", "l6", "l7", "l8", "l9"]

/-- A terminal that is 5 rows high when the pager starts and 7 rows high from
the first key on. -/
def resized_height : Nat → Int := fun decoded => if decoded = 0 then 5 else 7

/-- Five lines of content. -/
def five_lines : List String := ["l0", "l1", "l2", "l3", "l4"]

/-- One hundred lines of content, `L0` to `L99`. -/
def hundred_lines : List String :=
  [ "L0", "L1", "L2", "L3", "L4", "L5", "L6", "L7", "L8", "L9", "L10", "L11", "L12", "L13",
    "L14", "L15", "L16", "L17", "L18", "L19", "L20", "L21", "L22", "L23", "L24", "L25", "L26",
    "L27", "L28", "L29", "L30", "L31", "L32", "L33", "L34", "L35", "L36", "L37", "L38", "L39",
    "L40", "L41", "L42", "L43", "L44", "L45", "L46", "L47", "L48", "L49", "L50", "L51", "L52",
    "L53", "L54", "L55", "L56", "L57", "L58", "L59", "L60", "L61", "L62", "L63", "L64", "L65",
    "L66", "L67", "L68", "L69", "L70", "L71", "L72", "L73", "L74", "L75", "L76", "L77", "L78",
    "L79", "L80", "L81", "L82", "L83", "L84", "L85", "L86", "L87", "L88", "L89", "L90", "L91",
    "L92", "L93", "L94", "L95", "L96", "L97", "L98", "L99" ]

/-! ## Facts about `int` arithmetic -/

theorem wrap_int_of_in_range {x : Int} (h1 : INT_MIN ≤ x) (h2 : x ≤ INT_MAX) : wrap_int x = x := by
  unfold INT_MIN at h1
  unfold INT_MAX at h2
  unfold wrap_int
  omega

theorem wrap_int_bounds (x : Int) : INT_MIN ≤ wrap_int x ∧ wrap_int x ≤ INT_MAX := by
  unfold INT_MIN INT_MAX wrap_int
  omega

theorem size_to_int_of_le {n : Nat} (h : (n : Int) ≤ INT_MAX) : size_to_int n = (n : Int) := by
  unfold INT_MAX at h
  unfold size_to_int
  rw [if_pos (by omega)]

theorem size_to_int_bounds (k : Nat) : INT_MIN ≤ size_to_int k ∧ size_to_int k ≤ INT_MAX := by
  unfold size_to_int
  split_ifs with h
  · unfold INT_MIN INT_MAX
    omega
  · exact wrap_int_bounds _

theorem window_size_bounds (dimy lines_sub : Int) :
    1 ≤ window_size dimy lines_sub ∧ window_size dimy lines_sub ≤ INT_MAX := by
  unfold window_size std_max int_sub INT_MAX wrap_int
  omega

theorem window_size_eq_max {dimy lines_sub : Int}
    (h1 : INT_MIN ≤ dimy - lines_sub) (h2 : dimy - lines_sub ≤ INT_MAX) :
    window_size dimy lines_sub = max 1 (dimy - lines_sub) := by
  unfold INT_MIN at h1
  unfold INT_MAX at h2
  unfold window_size std_max int_sub wrap_int
  omega

theorem max_scroll_eq_max {n w : Int} (hn0 : 0 ≤ n) (hn : n ≤ INT_MAX) (hw1 : 1 ≤ w) (hw : w ≤ INT_MAX) :
    max_scroll n w = max 0 (n - w) := by
  unfold INT_MAX at hn hw
  unfold max_scroll std_max int_sub wrap_int
  omega

theorem int_add_of_in_range {a b : Int} (h1 : INT_MIN ≤ a + b) (h2 : a + b ≤ INT_MAX) :
    int_add a b = a + b := wrap_int_of_in_range h1 h2

theorem int_sub_of_in_range {a b : Int} (h1 : INT_MIN ≤ a - b) (h2 : a - b ≤ INT_MAX) :
    int_sub a b = a - b := wrap_int_of_in_range h1 h2

theorem max_scroll_bounds {n w : Int} (hn0 : 0 ≤ n) (hn : n ≤ INT_MAX) (hw1 : 1 ≤ w)
    (hw : w ≤ INT_MAX) :
    0 ≤ max_scroll n w ∧ max_scroll n w ≤ n ∧ max_scroll n w + w ≤ max n w ∧
      (n ≤ w → max_scroll n w = 0) ∧ (w ≤ n → max_scroll n w = n - w) := by
  rw [max_scroll_eq_max hn0 hn hw1 hw]
  omega

/-! ## The scroller's event handler -/

theorem OnEvent_scroll (f : ScrollFrame) (dimy : Int) (event : Event) :
    (f.OnEvent dimy event).frame.scroll_ =
      if event = Event.ArrowDown then
        std_min (int_add f.scroll_ 1) (max_scroll (size_to_int f.lines_.length) (window_size dimy f.lines_sub_))
      else if event = Event.ArrowUp then std_max (int_sub f.scroll_ 1) 0
      else if event = Event.PageDown then
        std_min (int_add f.scroll_ (window_size dimy f.lines_sub_))
          (max_scroll (size_to_int f.lines_.length) (window_size dimy f.lines_sub_))
      else if event = Event.PageUp then std_max (int_sub f.scroll_ (window_size dimy f.lines_sub_)) 0
      else if event = Event.Home then 0
      else if event = Event.End then
        max_scroll (size_to_int f.lines_.length) (window_size dimy f.lines_sub_)
      else f.scroll_ := by
  cases event <;> simp only [ScrollFrame.OnEvent, reduceCtorEq, if_true, if_false, window_size, max_scroll]
  split_ifs <;> simp only []

theorem OnEvent_lines (f : ScrollFrame) (dimy : Int) (event : Event) :
    (f.OnEvent dimy event).frame.lines_ = f.lines_ ∧
      (f.OnEvent dimy event).frame.lines_sub_ = f.lines_sub_ := by
  cases event <;> simp only [ScrollFrame.OnEvent, and_self]
  split_ifs <;> simp only [and_self]

theorem OnEvent_scroll_bounds (f : ScrollFrame) (dimy : Int) (event : Event)
    (hn0 : 0 ≤ size_to_int f.lines_.length)
    (h0 : 0 ≤ f.scroll_)
    (h1 : f.scroll_ ≤ max_scroll (size_to_int f.lines_.length) (window_size dimy f.lines_sub_)) :
    0 ≤ (f.OnEvent dimy event).frame.scroll_ ∧
    (f.OnEvent dimy event).frame.scroll_ ≤
      max_scroll (size_to_int f.lines_.length) (window_size dimy f.lines_sub_) := by
  rw [OnEvent_scroll]
  obtain ⟨hw1, hw⟩ := window_size_bounds dimy f.lines_sub_
  generalize window_size dimy f.lines_sub_ = w at h1 hw1 hw ⊢
  obtain ⟨-, hn⟩ := size_to_int_bounds f.lines_.length
  generalize size_to_int f.lines_.length = n at hn hn0 h1 ⊢
  obtain ⟨hm0, hmn, hmw, -, -⟩ := max_scroll_bounds hn0 hn hw1 hw
  generalize max_scroll n w = m at h1 hm0 hmn hmw ⊢
  generalize f.scroll_ = p at h0 h1 ⊢
  unfold INT_MAX at hn hw
  have e1 : int_add p 1 = p + 1 :=
    int_add_of_in_range (by unfold INT_MIN; omega) (by unfold INT_MAX; omega)
  have e2 : int_sub p 1 = p - 1 :=
    int_sub_of_in_range (by unfold INT_MIN; omega) (by unfold INT_MAX; omega)
  have e3 : int_add p w = p + w :=
    int_add_of_in_range (by unfold INT_MIN; omega) (by unfold INT_MAX; omega)
  have e4 : int_sub p w = p - w :=
    int_sub_of_in_range (by unfold INT_MIN; omega) (by unfold INT_MAX; omega)
  rw [e1, e2, e3, e4]
  unfold std_min std_max
  split_ifs <;> omega

/-- C1: for every content length that is not negative as the `int` the handler
computes, every terminal height and every position inside `[0, max_scroll]`,
the handler leaves a position inside `[0, max_scroll]`, whatever the event;
this covers `ArrowDown`, `ArrowUp`, `PageDown`, `PageUp`, `Home` and `End`. -/
theorem OnEvent_position_in_range (f : ScrollFrame) (dimy : Int) (event : Event)
    (hn0 : 0 ≤ size_to_int f.lines_.length)
    (h0 : 0 ≤ f.scroll_)
    (h1 : f.scroll_ ≤ max_scroll (size_to_int f.lines_.length) (window_size dimy f.lines_sub_)) :
    0 ≤ (f.OnEvent dimy event).frame.scroll_ ∧
    (f.OnEvent dimy event).frame.scroll_ ≤
      max_scroll (size_to_int f.lines_.length) (window_size dimy f.lines_sub_) :=
  OnEvent_scroll_bounds f dimy event hn0 h0 h1

/-- C4: one line down and one line up again returns to the starting position
when that position is below `max_scroll`, and a line up at position 0 stays at 0. -/
theorem ArrowDown_then_ArrowUp (f : ScrollFrame) (dimy : Int)
    (hn0 : 0 ≤ size_to_int f.lines_.length) :
    (0 ≤ f.scroll_ →
      f.scroll_ < max_scroll (size_to_int f.lines_.length) (window_size dimy f.lines_sub_) →
      ((f.OnEvent dimy Event.ArrowDown).frame.OnEvent dimy Event.ArrowUp).frame.scroll_ = f.scroll_) ∧
    (f.scroll_ = 0 → (f.OnEvent dimy Event.ArrowUp).frame.scroll_ = 0) := by
  simp only [OnEvent_scroll, reduceCtorEq, if_true, if_false]
  obtain ⟨hw1, hw⟩ := window_size_bounds dimy f.lines_sub_
  generalize window_size dimy f.lines_sub_ = w at hw1 hw ⊢
  obtain ⟨-, hn⟩ := size_to_int_bounds f.lines_.length
  generalize size_to_int f.lines_.length = n at hn hn0 ⊢
  obtain ⟨hm0, hmn, hmw, -, -⟩ := max_scroll_bounds hn0 hn hw1 hw
  generalize max_scroll n w = m at hm0 hmn hmw ⊢
  generalize f.scroll_ = p
  unfold INT_MAX at hn hw
  constructor
  · intro h0 h1
    have e1 : int_add p 1 = p + 1 :=
      int_add_of_in_range (by unfold INT_MIN; omega) (by unfold INT_MAX; omega)
    have e2 : std_min (p + 1) m = p + 1 := by
      unfold std_min
      split_ifs <;> omega
    have e3 : int_sub (p + 1) 1 = p :=
      (int_sub_of_in_range (by unfold INT_MIN; omega) (by unfold INT_MAX; omega)).trans (by omega)
    rw [e1, e2, e3]
    unfold std_max
    split_ifs <;> omega
  · intro h0
    subst h0
    have e1 : int_sub 0 1 = -1 :=
      (int_sub_of_in_range (by unfold INT_MIN; omega) (by unfold INT_MAX; omega)).trans (by omega)
    rw [e1]
    unfold std_max
    split_ifs <;> omega

/-- C7: `Home` followed by `End` leaves the position at `max_scroll`, and a
second `End` changes nothing. -/
theorem Home_then_End (f : ScrollFrame) (dimy : Int) :
    ((f.OnEvent dimy Event.Home).frame.OnEvent dimy Event.End).frame.scroll_ =
        max_scroll (size_to_int f.lines_.length) (window_size dimy f.lines_sub_) ∧
    ((f.OnEvent dimy Event.End).frame.OnEvent dimy Event.End).frame.scroll_ =
        (f.OnEvent dimy Event.End).frame.scroll_ := by
  simp only [OnEvent_scroll, OnEvent_lines, reduceCtorEq, if_true, if_false, and_self]

/-! ## `Render` -/

theorem Render_window_size (f : ScrollFrame) (dimy : Int) :
    (f.Render dimy).window_size = window_size dimy 1 := by
  simp only [ScrollFrame.Render, window_size]

theorem Render_max_scroll (f : ScrollFrame) (dimy : Int) :
    (f.Render dimy).max_scroll = max_scroll (size_to_int f.lines_.length) (window_size dimy 1) := by
  simp only [ScrollFrame.Render, window_size, max_scroll]

theorem Render_scroll (f : ScrollFrame) (dimy : Int) :
    (f.Render dimy).scroll_ =
      std_clamp f.scroll_ 0 (max_scroll (size_to_int f.lines_.length) (window_size dimy 1)) := by
  simp only [ScrollFrame.Render, window_size, max_scroll]

theorem Render_visible_view (f : ScrollFrame) (dimy : Int) :
    (f.Render dimy).visible_view =
      (f.lines_.drop (f.Render dimy).scroll_.toNat).take (window_size dimy 1).toNat := by
  simp only [ScrollFrame.Render, window_size, max_scroll]

theorem Render_show_up_arrow (f : ScrollFrame) (dimy : Int) :
    (f.Render dimy).show_up_arrow = decide ((f.Render dimy).scroll_ > 0) := by
  simp only [ScrollFrame.Render]

theorem Render_show_down_arrow (f : ScrollFrame) (dimy : Int) :
    (f.Render dimy).show_down_arrow =
      decide (int_add (f.Render dimy).scroll_ (window_size dimy 1) < size_to_int f.lines_.length) := by
  simp only [ScrollFrame.Render, window_size]

theorem Render_visible_lines (f : ScrollFrame) (dimy : Int) :
    (f.Render dimy).visible_lines =
      (let v1 :=
        if (f.Render dimy).show_up_arrow = true ∧ (f.Render dimy).visible_view.length > 1
        then set_front (f.Render dimy).visible_view "(more...)" else (f.Render dimy).visible_view
       if (f.Render dimy).show_down_arrow = true ∧ v1.length > 1
        then set_back v1 "(more...)" else v1) := by
  simp only [ScrollFrame.Render]

theorem Render_bar (f : ScrollFrame) (dimy : Int) :
    (f.Render dimy).bar_size = bar_size (window_size dimy 1) (size_to_int f.lines_.length) ∧
    (f.Render dimy).bar_position =
      bar_position (window_size dimy 1) (size_to_int f.lines_.length) (f.Render dimy).scroll_ := by
  simp only [ScrollFrame.Render, window_size, and_self]

theorem std_clamp_of_in_range {v lo hi : Int} (h1 : lo ≤ v) (h2 : v ≤ hi) : std_clamp v lo hi = v := by
  unfold std_clamp
  split_ifs <;> omega

/-- C6: when the content is not longer than the window, `max_scroll` is 0, every
event leaves the position at 0, and `Render` paints the selected lines
unchanged, with neither the top nor the bottom marker. -/
theorem short_content_does_not_scroll (f : ScrollFrame) (dimy : Int)
    (hn0 : 0 ≤ size_to_int f.lines_.length)
    (hw : size_to_int f.lines_.length ≤ window_size dimy f.lines_sub_)
    (hr : size_to_int f.lines_.length ≤ (f.Render dimy).window_size) :
    max_scroll (size_to_int f.lines_.length) (window_size dimy f.lines_sub_) = 0 ∧
    (∀ event : Event, f.scroll_ = 0 → (f.OnEvent dimy event).frame.scroll_ = 0) ∧
    (f.Render dimy).show_up_arrow = false ∧
    (f.Render dimy).show_down_arrow = false ∧
    (f.Render dimy).visible_lines = (f.Render dimy).visible_view := by
  rw [Render_window_size] at hr
  obtain ⟨-, hn⟩ := size_to_int_bounds f.lines_.length
  obtain ⟨hw1, hwm⟩ := window_size_bounds dimy f.lines_sub_
  obtain ⟨hr1, hrm⟩ := window_size_bounds dimy 1
  have hm : max_scroll (size_to_int f.lines_.length) (window_size dimy f.lines_sub_) = 0 :=
    (max_scroll_bounds hn0 hn hw1 hwm).2.2.2.1 hw
  have hmr : max_scroll (size_to_int f.lines_.length) (window_size dimy 1) = 0 :=
    (max_scroll_bounds hn0 hn hr1 hrm).2.2.2.1 hr
  have hs : (f.Render dimy).scroll_ = 0 := by
    rw [Render_scroll, hmr]
    unfold std_clamp
    split_ifs <;> omega
  have hup : (f.Render dimy).show_up_arrow = false := by
    rw [Render_show_up_arrow, hs]
    decide
  have hdown : (f.Render dimy).show_down_arrow = false := by
    rw [Render_show_down_arrow, hs]
    have e : int_add 0 (window_size dimy 1) = window_size dimy 1 :=
      (int_add_of_in_range (by unfold INT_MIN; omega) (by omega)).trans (by omega)
    rw [e]
    exact decide_eq_false (by omega)
  refine ⟨hm, ?_, hup, hdown, ?_⟩
  · intro event h0
    have h := OnEvent_scroll_bounds f dimy event hn0 (by omega) (by rw [hm]; omega)
    rw [hm] at h
    omega
  · rw [Render_visible_lines, hup, hdown]
    simp

theorem highlighted_legend (u d : Bool) :
    let tooltip : List Text :=
      [ create_highlighted_element "↑" u, ⟨"/", Style.plain⟩,
        create_highlighted_element "↓" d, ⟨": Scroll | ", Style.dim⟩,
        create_highlighted_element "PgUp" u, ⟨"/", Style.plain⟩,
        create_highlighted_element "PgDn" d, ⟨": Scroll Page | ", Style.dim⟩,
        create_highlighted_element "Home" u, ⟨"/", Style.plain⟩,
        create_highlighted_element "End" d, ⟨": Top/Bottom | ", Style.dim⟩,
        create_highlighted_element "Q" true, ⟨"/", Style.plain⟩,
        create_highlighted_element "Esc" true, ⟨": Quit", Style.dim⟩ ]
    (∀ entry ∈ ["↑", "PgUp", "Home"], highlighted tooltip entry = u) ∧
    (∀ entry ∈ ["↓", "PgDn", "End"], highlighted tooltip entry = d) := by
  cases u <;> cases d <;> decide

theorem Render_highlighted (f : ScrollFrame) (dimy : Int) :
    (∀ entry ∈ ["↑", "PgUp", "Home"],
      highlighted (f.Render dimy).tooltip entry = (f.Render dimy).show_up_arrow) ∧
    (∀ entry ∈ ["↓", "PgDn", "End"],
      highlighted (f.Render dimy).tooltip entry = (f.Render dimy).show_down_arrow) :=
  highlighted_legend (f.Render dimy).show_up_arrow (f.Render dimy).show_down_arrow

/-- C9: with one reserved line and a position inside `[0, max_scroll]`, the
legend entries `↑`, `PgUp`, `Home` are highlighted exactly when `ArrowUp` would
change the position (the position is above 0), and `↓`, `PgDn`, `End` exactly
when `ArrowDown` would change it (the position is below `max_scroll`). -/
theorem legend_highlights_possible_moves (f : ScrollFrame) (dimy : Int)
    (hn0 : 0 ≤ size_to_int f.lines_.length)
    (hsub : f.lines_sub_ = 1)
    (h0 : 0 ≤ f.scroll_)
    (h1 : f.scroll_ ≤ max_scroll (size_to_int f.lines_.length) (window_size dimy 1)) :
    (∀ entry ∈ ["↑", "PgUp", "Home"],
      (highlighted (f.Render dimy).tooltip entry = true ↔
        (f.OnEvent dimy Event.ArrowUp).frame.scroll_ ≠ f.scroll_) ∧
      (highlighted (f.Render dimy).tooltip entry = true ↔ 0 < f.scroll_)) ∧
    (∀ entry ∈ ["↓", "PgDn", "End"],
      (highlighted (f.Render dimy).tooltip entry = true ↔
        (f.OnEvent dimy Event.ArrowDown).frame.scroll_ ≠ f.scroll_) ∧
      (highlighted (f.Render dimy).tooltip entry = true ↔
        f.scroll_ < max_scroll (size_to_int f.lines_.length) (window_size dimy 1))) := by
  have hs : (f.Render dimy).scroll_ = f.scroll_ := by
    rw [Render_scroll]
    exact std_clamp_of_in_range h0 h1
  have hup := Render_show_up_arrow f dimy
  have hdown := Render_show_down_arrow f dimy
  rw [hs] at hup hdown
  obtain ⟨hu, hd⟩ := Render_highlighted f dimy
  simp only [OnEvent_scroll, reduceCtorEq, if_true, if_false, hsub]
  obtain ⟨hw1, hw⟩ := window_size_bounds dimy 1
  generalize window_size dimy 1 = w at h1 hw1 hw hdown ⊢
  obtain ⟨-, hn⟩ := size_to_int_bounds f.lines_.length
  generalize size_to_int f.lines_.length = n at hn hn0 h1 hdown ⊢
  obtain ⟨hm0, hmn, hmw, hm1, hm2⟩ := max_scroll_bounds hn0 hn hw1 hw
  generalize max_scroll n w = m at h1 hm0 hmn hmw hm1 hm2 ⊢
  generalize f.scroll_ = p at h0 h1 hup hdown ⊢
  unfold INT_MAX at hn hw
  have e1 : int_add p 1 = p + 1 :=
    int_add_of_in_range (by unfold INT_MIN; omega) (by unfold INT_MAX; omega)
  have e2 : int_sub p 1 = p - 1 :=
    int_sub_of_in_range (by unfold INT_MIN; omega) (by unfold INT_MAX; omega)
  have e3 : int_add p w = p + w :=
    int_add_of_in_range (by unfold INT_MIN; omega) (by unfold INT_MAX; omega)
  rw [e3] at hdown
  rw [e1, e2]
  constructor
  · intro entry hl
    rw [hu entry hl, hup, decide_eq_true_iff]
    unfold std_max
    constructor
    · split_ifs <;> omega
    · omega
  · intro entry hl
    rw [hd entry hl, hdown, decide_eq_true_iff]
    unfold std_min
    constructor
    · split_ifs <;> omega
    · omega

/-! ## Paging through the content -/

theorem OnEvents_PageDown (dimy : Int) (k : Nat) :
    ∀ f : ScrollFrame, (f.lines_.length : Int) ≤ INT_MAX → 0 ≤ f.scroll_ →
      f.scroll_ ≤ max_scroll (size_to_int f.lines_.length) (window_size dimy f.lines_sub_) →
      (f.OnEvents dimy (List.replicate k Event.PageDown)).scroll_ =
          min (f.scroll_ + (k : Int) * window_size dimy f.lines_sub_)
            (max_scroll (size_to_int f.lines_.length) (window_size dimy f.lines_sub_)) ∧
        (f.OnEvents dimy (List.replicate k Event.PageDown)).lines_ = f.lines_ ∧
        (f.OnEvents dimy (List.replicate k Event.PageDown)).lines_sub_ = f.lines_sub_ := by
  induction k with
  | zero =>
    intro f _ _ h1
    simp only [List.replicate, ScrollFrame.OnEvents, Nat.cast_zero, zero_mul, add_zero, and_self,
      and_true]
    omega
  | succ k ih =>
    intro f hn h0 h1
    obtain ⟨hl, hsub⟩ := OnEvent_lines f dimy Event.PageDown
    obtain ⟨hb0, hb1⟩ := OnEvent_scroll_bounds f dimy Event.PageDown
      (by rw [size_to_int_of_le hn]; exact Int.natCast_nonneg _) h0 h1
    have hs := OnEvent_scroll f dimy Event.PageDown
    simp only [reduceCtorEq, if_true, if_false] at hs
    have ih1 := ih (f.OnEvent dimy Event.PageDown).frame (by rw [hl]; exact hn) hb0
      (by rw [hl, hsub]; exact hb1)
    rw [hl, hsub] at ih1
    simp only [List.replicate, ScrollFrame.OnEvents]
    refine ⟨?_, ih1.2.1, ih1.2.2⟩
    rw [ih1.1, hs]
    rw [size_to_int_of_le hn] at h1 ⊢
    obtain ⟨hw1, hw⟩ := window_size_bounds dimy f.lines_sub_
    generalize window_size dimy f.lines_sub_ = w at h1 hw1 hw ⊢
    have hn0 : (0 : Int) ≤ (f.lines_.length : Int) := Int.natCast_nonneg _
    generalize (f.lines_.length : Int) = n at hn hn0 h1 ⊢
    obtain ⟨hm0, hmn, hmw, -, -⟩ := max_scroll_bounds hn0 hn hw1 hw
    generalize max_scroll n w = m at h1 hm0 hmn hmw ⊢
    generalize f.scroll_ = p at h0 h1 ⊢
    unfold INT_MAX at hn hw
    have e3 : int_add p w = p + w :=
      int_add_of_in_range (by unfold INT_MIN; omega) (by unfold INT_MAX; omega)
    have hk : (0 : Int) ≤ (k : Int) * w := Int.mul_nonneg (Int.natCast_nonneg _) (by omega)
    have hk1 : ((k + 1 : Nat) : Int) * w = (k : Int) * w + w := by
      push_cast
      ring
    rw [e3, hk1]
    generalize (k : Int) * w = kw at hk ⊢
    unfold std_min
    split_ifs <;> omega

theorem Render_slice (f : ScrollFrame) (dimy : Int)
    (h0 : 0 ≤ f.scroll_)
    (h1 : f.scroll_ ≤ max_scroll (size_to_int f.lines_.length) (window_size dimy 1)) :
    (f.Render dimy).visible_view =
      (f.lines_.take (min (f.scroll_ + window_size dimy 1) (f.lines_.length : Int)).toNat).drop
        f.scroll_.toNat := by
  have hs : (f.Render dimy).scroll_ = f.scroll_ := by
    rw [Render_scroll]
    exact std_clamp_of_in_range h0 h1
  rw [Render_visible_view, hs, List.take_drop]
  congr 1
  rw [List.take_eq_take]
  obtain ⟨hw1, hw⟩ := window_size_bounds dimy 1
  omega

/-- C5: from position 0 and with one reserved line, `k` `PageDown` events leave
the position `min(k * w, max(0, n - w))`, and `Render` then selects the lines
`lines[position : min(position + w, n))`, where `w` is the window size and `n`
the number of lines. -/
theorem PageDown_pages (f : ScrollFrame) (dimy : Int) (k : Nat)
    (hn : (f.lines_.length : Int) ≤ INT_MAX)
    (hsub : f.lines_sub_ = 1)
    (h0 : f.scroll_ = 0) :
    (f.OnEvents dimy (List.replicate k Event.PageDown)).scroll_ =
        min ((k : Int) * window_size dimy 1) (max 0 ((f.lines_.length : Int) - window_size dimy 1)) ∧
    ((f.OnEvents dimy (List.replicate k Event.PageDown)).Render dimy).visible_view =
      (f.lines_.take
        (min ((f.OnEvents dimy (List.replicate k Event.PageDown)).scroll_ + window_size dimy 1)
          (f.lines_.length : Int)).toNat).drop
        (f.OnEvents dimy (List.replicate k Event.PageDown)).scroll_.toNat := by
  have hn0 : (0 : Int) ≤ (f.lines_.length : Int) := Int.natCast_nonneg _
  obtain ⟨hw1, hw⟩ := window_size_bounds dimy 1
  have hm := max_scroll_bounds hn0 hn hw1 hw
  have hmax := max_scroll_eq_max hn0 hn hw1 hw
  obtain ⟨hp, hl, hs⟩ := OnEvents_PageDown dimy k f hn (by omega)
    (by rw [hsub, size_to_int_of_le hn, h0]; exact hm.1)
  rw [hsub, size_to_int_of_le hn, h0, zero_add, hmax] at hp
  have hk : (0 : Int) ≤ (k : Int) * window_size dimy 1 :=
    Int.mul_nonneg (Int.natCast_nonneg _) (by omega)
  refine ⟨hp, ?_⟩
  have hr := Render_slice (f.OnEvents dimy (List.replicate k Event.PageDown)) dimy
    (by rw [hp]; omega)
    (by rw [hl, size_to_int_of_le hn, hp, hmax]; omega)
  rw [hl] at hr
  exact hr

/-! ## The scrollbar -/

theorem int_mul_of_in_range {a b : Int} (h1 : INT_MIN ≤ a * b) (h2 : a * b ≤ INT_MAX) :
    int_mul a b = a * b := wrap_int_of_in_range h1 h2

theorem int_div_of_nonneg {a b : Int} (ha : 0 ≤ a) (ha2 : a ≤ INT_MAX) (hb : 0 < b) :
    int_div a b = a / b := by
  unfold int_div
  rw [Int.tdiv_eq_ediv ha (le_of_lt hb)]
  have h1 : 0 ≤ a / b := Int.ediv_nonneg ha (le_of_lt hb)
  have h2 : a / b ≤ a := Int.ediv_le_self b ha
  exact wrap_int_of_in_range (by unfold INT_MIN; omega) (by omega)

theorem bar_size_bounds {w n : Int} (hw : 1 ≤ w) (hn : 0 ≤ n)
    (hww : w * w ≤ INT_MAX) (h3 : 3 * max w n ≤ INT_MAX) :
    1 ≤ bar_size w n ∧ bar_size w n ≤ w := by
  have hmax : std_max w n = max w n := by
    unfold std_max
    split_ifs <;> omega
  have hM : 1 ≤ max w n := by omega
  generalize max w n = M at hmax h3 hM
  have hM2 : w ≤ M := by
    rw [← hmax]
    unfold std_max
    split_ifs <;> omega
  have hww0 : 0 ≤ w * w := Int.mul_nonneg (by omega) (by omega)
  unfold bar_size
  rw [hmax, int_mul_of_in_range (by unfold INT_MIN; omega) hww,
    int_mul_of_in_range (by unfold INT_MIN; omega) h3,
    int_div_of_nonneg hww0 hww (by omega)]
  have hq0 : 0 ≤ w * w / (3 * M) := Int.ediv_nonneg hww0 (by omega)
  have hq : w * w / (3 * M) ≤ w := by
    apply Int.ediv_le_of_le_mul (by omega)
    have : w * w ≤ w * (3 * M) := Int.mul_le_mul_of_nonneg_left (by omega) (by omega)
    exact this
  generalize w * w / (3 * M) = q at hq0 hq
  unfold std_max
  split_ifs <;> omega

/-- The scrollbar thumb lies inside the column whenever the products that
`Render` forms fit into an `int`. -/
theorem scrollbar_bounds_of_no_overflow {w n p : Int} (hw : 1 ≤ w) (hn : 0 ≤ n)
    (hp0 : 0 ≤ p) (hp : p ≤ max 0 (n - w))
    (hww : w * w ≤ INT_MAX) (h3 : 3 * max w n ≤ INT_MAX) (hpw : p * w ≤ INT_MAX) :
    1 ≤ bar_size w n ∧ 0 ≤ bar_position w n p ∧ bar_position w n p + bar_size w n ≤ w := by
  obtain ⟨hb1, hbw⟩ := bar_size_bounds hw hn hww h3
  refine ⟨hb1, ?_⟩
  unfold bar_position
  generalize bar_size w n = bs at hb1 hbw
  unfold INT_MAX at hww h3 hpw
  have hwn : w ≤ 2147483647 := by nlinarith
  have hnn : n ≤ 2147483647 := by omega
  have e1 : int_sub n w = n - w :=
    int_sub_of_in_range (by unfold INT_MIN; omega) (by unfold INT_MAX; omega)
  have e2 : int_sub w bs = w - bs :=
    int_sub_of_in_range (by unfold INT_MIN; omega) (by unfold INT_MAX; omega)
  rw [e1, e2]
  split_ifs with h0
  · omega
  · have hnum0 : 0 ≤ p * (w - bs) := Int.mul_nonneg hp0 (by omega)
    have hnum1 : p * (w - bs) ≤ p * w := Int.mul_le_mul_of_nonneg_left (by omega) hp0
    have e3 : int_mul p (w - bs) = p * (w - bs) :=
      int_mul_of_in_range (by unfold INT_MIN; omega) (by unfold INT_MAX; omega)
    rw [e3]
    rcases lt_or_gt_of_ne h0 with hlt | hgt
    · have hp00 : p = 0 := by omega
      subst hp00
      simp only [zero_mul, int_div, Int.zero_tdiv]
      rw [wrap_int_of_in_range (by unfold INT_MIN; omega) (by unfold INT_MAX; omega)]
      omega
    · rw [int_div_of_nonneg hnum0 (by unfold INT_MAX; omega) hgt]
      have hq0 : 0 ≤ p * (w - bs) / (n - w) := Int.ediv_nonneg hnum0 (by omega)
      have hq : p * (w - bs) / (n - w) ≤ w - bs := by
        apply Int.ediv_le_of_le_mul hgt
        have : p * (w - bs) ≤ (n - w) * (w - bs) :=
          Int.mul_le_mul_of_nonneg_right (by omega) (by omega)
        rw [Int.mul_comm (w - bs)]
        exact this
      omega

/-- C2 at a concrete input: 30000100 lines in a terminal of 101 rows, after the
`End` key. The position is 30000000, the window has 100 cells, the product
`scroll_ * (window_size - bar_size)` is 2970000000 and does not fit into an
`int`, and the thumb position comes out as -44, above the scrollbar column. -/
theorem scrollbar_thumb_outside_column :
    ((ScrollFrame.init (List.replicate 30000100 "") 1).OnEvent 101 Event.End).frame.scroll_ =
        30000000 ∧
    (((ScrollFrame.init (List.replicate 30000100 "") 1).OnEvent 101 Event.End).frame.Render
        101).window_size = 100 ∧
    (((ScrollFrame.init (List.replicate 30000100 "") 1).OnEvent 101 Event.End).frame.Render
        101).scroll_ = 30000000 ∧
    (((ScrollFrame.init (List.replicate 30000100 "") 1).OnEvent 101 Event.End).frame.Render
        101).bar_size = 1 ∧
    (((ScrollFrame.init (List.replicate 30000100 "") 1).OnEvent 101 Event.End).frame.Render
        101).bar_position = -44 := by
  simp only [Render_bar, Render_scroll, Render_window_size, OnEvent_scroll, OnEvent_lines,
    ScrollFrame.init, List.length_replicate, reduceCtorEq, if_true, if_false]
  with_unfolding_all decide

/-! ## The pager's key decoder -/

/-- C3: the decoder returns one action for every stream of `get_char` values:
`27 91 66` gives `LineDown`, `27 91` followed by anything else gives `None`,
`27` followed by anything other than `91` (end of input included) gives `Quit`,
`13` and `10` give `PageDown`, `q` and `Q` give `Quit`, and every other first
value gives `None`. -/
theorem get_key_action_decodes (input : Nat → Int) (pos : Nat) :
    (input pos = 27 → input (pos + 1) = 91 → input (pos + 2) = 66 →
      (get_key_action input pos).1 = KeyAction.LineDown) ∧
    (input pos = 27 → input (pos + 1) = 91 → input (pos + 2) ≠ 66 →
      (get_key_action input pos).1 = KeyAction.None) ∧
    (input pos = 27 → input (pos + 1) ≠ 91 →
      (get_key_action input pos).1 = KeyAction.Quit) ∧
    (input pos = 13 ∨ input pos = 10 → (get_key_action input pos).1 = KeyAction.PageDown) ∧
    (input pos = 113 ∨ input pos = 81 → (get_key_action input pos).1 = KeyAction.Quit) ∧
    (input pos ≠ 27 → input pos ≠ 13 → input pos ≠ 10 → input pos ≠ 113 → input pos ≠ 81 →
      (get_key_action input pos).1 = KeyAction.None) := by
  unfold get_key_action get_char
  simp only []
  refine ⟨?_, ?_, ?_, ?_, ?_, ?_⟩
  · intro h1 h2 h3
    rw [if_pos h1, if_pos h2, if_pos h3]
  · intro h1 h2 h3
    rw [if_pos h1, if_pos h2, if_neg h3]
  · intro h1 h2
    rw [if_pos h1, if_neg h2]
  · intro h
    have h1 : input pos ≠ 27 := by omega
    rw [if_neg h1, if_pos h]
  · intro h
    have h1 : input pos ≠ 27 := by omega
    have h2 : ¬ (input pos = 13 ∨ input pos = 10) := by omega
    have h3 : input pos = 113 ∨ input pos = 81 ∨ input pos = 27 := by omega
    rw [if_neg h1, if_neg h2, if_pos h3]
  · intro h1 h2 h3 h4 h5
    have h6 : ¬ (input pos = 13 ∨ input pos = 10) := by omega
    have h7 : ¬ (input pos = 113 ∨ input pos = 81 ∨ input pos = 27) := by omega
    rw [if_neg h1, if_neg h6, if_neg h7]

/-- C3 on the streams `[27, 91, 66]`, `[27]` (end of input after the escape
byte), `q` and `Q`. -/
theorem get_key_action_decodes_witness :
    (get_key_action (stream_of [27, 91, 66]) 0).1 = KeyAction.LineDown ∧
    (get_key_action (stream_of [27]) 0).1 = KeyAction.Quit ∧
    (get_key_action (stream_of [113]) 0).1 = KeyAction.Quit ∧
    (get_key_action (stream_of [81]) 0).1 = KeyAction.Quit ∧
    (get_key_action (stream_of [13]) 0).1 = KeyAction.PageDown ∧
    (get_key_action (stream_of [27, 91, 65]) 0).1 = KeyAction.None ∧
    (get_key_action (stream_of [120]) 0).1 = KeyAction.None :=
  ⟨(get_key_action_decodes (stream_of [27, 91, 66]) 0).1 (by decide) (by decide) (by decide),
   (get_key_action_decodes (stream_of [27]) 0).2.2.1 (by decide) (by decide),
   (get_key_action_decodes (stream_of [113]) 0).2.2.2.2.1 (by decide),
   (get_key_action_decodes (stream_of [81]) 0).2.2.2.2.1 (by decide),
   (get_key_action_decodes (stream_of [13]) 0).2.2.2.1 (by decide),
   (get_key_action_decodes (stream_of [27, 91, 65]) 0).2.1 (by decide) (by decide) (by decide),
   (get_key_action_decodes (stream_of [120]) 0).2.2.2.2.2 (by decide) (by decide) (by decide)
     (by decide) (by decide)⟩

/-! ## The pager -/

theorem printed_lines_append (a b : List Output) :
    printed_lines (a ++ b) = printed_lines a ++ printed_lines b := by
  induction a with
  | nil => rfl
  | cons x xs ih =>
    cases x <;> simp only [List.cons_append, printed_lines, List.append_eq] <;>
      simp only [ih, List.cons_append]

theorem printed_lines_map_line (l : List String) : printed_lines (l.map Output.line) = l := by
  induction l with
  | nil => rfl
  | cons x xs ih => simp only [List.map, printed_lines, ih]

theorem printed_lines_print_range (lines : List String) (c k : Int) :
    printed_lines (print_range lines c k) = (lines.drop c.toNat).take k.toNat := by
  unfold print_range
  exact printed_lines_map_line _

theorem PagerInv_print_page (lines : List String) (p : Pager) (window_size : Int)
    (hn : (lines.length : Int) ≤ INT_MAX) (hw1 : 1 ≤ window_size) (hw : window_size ≤ INT_MAX)
    (hinv : PagerInv lines p) :
    PagerInv lines (print_page lines (lines.length : Int) window_size p) ∧
    (p.current_line < (lines.length : Int) →
      p.current_line < (print_page lines (lines.length : Int) window_size p).current_line) ∧
    (print_page lines (lines.length : Int) window_size p).status = p.status := by
  obtain ⟨h0, h1, hp⟩ := hinv
  unfold INT_MAX at hn hw
  unfold print_page
  simp only []
  have e1 : int_sub (lines.length : Int) p.current_line = (lines.length : Int) - p.current_line :=
    int_sub_of_in_range (by unfold INT_MIN; omega) (by unfold INT_MAX; omega)
  rw [e1]
  have hk0 : 0 ≤ std_min window_size ((lines.length : Int) - p.current_line) := by
    unfold std_min
    split_ifs <;> omega
  have hk1 : std_min window_size ((lines.length : Int) - p.current_line) ≤
      (lines.length : Int) - p.current_line := by
    unfold std_min
    split_ifs <;> omega
  have hk2 : p.current_line < (lines.length : Int) →
      1 ≤ std_min window_size ((lines.length : Int) - p.current_line) := by
    intro h
    unfold std_min
    split_ifs <;> omega
  generalize std_min window_size ((lines.length : Int) - p.current_line) = k at hk0 hk1 hk2
  have e2 : int_add p.current_line k = p.current_line + k :=
    int_add_of_in_range (by unfold INT_MIN; omega) (by unfold INT_MAX; omega)
  rw [e2]
  refine ⟨⟨by simp only []; omega, by simp only []; omega, ?_⟩,
    fun h => by have := hk2 h; omega, trivial⟩
  simp only [printed_lines_append, printed_lines_print_range, hp]
  have e3 : (p.current_line + k).toNat = p.current_line.toNat + k.toNat := by omega
  rw [e3, List.take_add]

theorem PagerInv_line_down (lines : List String) (p : Pager)
    (hn : (lines.length : Int) ≤ INT_MAX) (hinv : PagerInv lines p) :
    PagerInv lines (line_down lines (lines.length : Int) p) ∧
    (line_down lines (lines.length : Int) p).status = p.status := by
  obtain ⟨h0, h1, hp⟩ := hinv
  unfold INT_MAX at hn
  unfold line_down
  simp only []
  split_ifs with hlt
  · have e2 : int_add p.current_line 1 = p.current_line + 1 :=
      int_add_of_in_range (by unfold INT_MIN; omega) (by unfold INT_MAX; omega)
    rw [e2]
    refine ⟨⟨by simp only []; omega, by simp only []; omega, ?_⟩, rfl⟩
    have hlt2 : p.current_line.toNat < lines.length := by omega
    simp only [printed_lines_append, printed_lines, hp, List.append_nil]
    have e3 : (p.current_line + 1).toNat = p.current_line.toNat + 1 := by omega
    rw [e3, List.take_succ, List.getD_eq_getElem _ _ hlt2, List.getElem?_eq_getElem hlt2]
    rfl
  · refine ⟨⟨h0, h1, ?_⟩, rfl⟩
    simp only [printed_lines_append, printed_lines, hp, List.append_nil]

theorem PagerInv_show_prompt (lines : List String) (shown : Bool) (p : Pager)
    (hinv : PagerInv lines p) :
    PagerInv lines (show_prompt shown p) ∧ (show_prompt shown p).status = p.status ∧
      (show_prompt shown p).current_line = p.current_line := by
  obtain ⟨h0, h1, hp⟩ := hinv
  unfold show_prompt
  split_ifs
  · refine ⟨⟨h0, h1, ?_⟩, rfl, rfl⟩
    simp only [printed_lines_append, printed_lines, hp, List.append_nil]
  · exact ⟨⟨h0, h1, hp⟩, rfl, rfl⟩

theorem PagerInv_erase (lines : List String) (p : Pager) (hinv : PagerInv lines p) :
    PagerInv lines { p with output := p.output ++ [Output.erase_prompt] } := by
  obtain ⟨h0, h1, hp⟩ := hinv
  refine ⟨h0, h1, ?_⟩
  simp only [printed_lines_append, printed_lines, hp, List.append_nil]

theorem PagerInv_decoded (lines : List String) (p : Pager) (d : Nat) (hinv : PagerInv lines p) :
    PagerInv lines { p with decoded := d } := hinv

theorem PagerInv_status (lines : List String) (p : Pager) (s : Status) (hinv : PagerInv lines p) :
    PagerInv lines { p with status := s } := hinv

/-- What the inner loops guarantee: the invariant is kept, the loop is only left
through its condition once the whole content is printed, and otherwise the
pager has quit or is blocked waiting for a key. -/
theorem input_loop_spec (lines : List String) (window_size : Int)
    (hn : (lines.length : Int) ≤ INT_MAX) (hw1 : 1 ≤ window_size) (hw : window_size ≤ INT_MAX)
    (keys : List KeyAction) :
    ∀ (shown : Bool) (p : Pager), PagerInv lines p → p.status = Status.running →
      PagerInv lines (input_loop lines (lines.length : Int) window_size keys shown p).1 ∧
      ((input_loop lines (lines.length : Int) window_size keys shown p).1.status = Status.running →
        (lines.length : Int) ≤
          (input_loop lines (lines.length : Int) window_size keys shown p).1.current_line) ∧
      ((input_loop lines (lines.length : Int) window_size keys shown p).1.status = Status.running ∨
        (input_loop lines (lines.length : Int) window_size keys shown p).1.status = Status.quit ∨
        (input_loop lines (lines.length : Int) window_size keys shown p).1.status =
          Status.awaiting_input) := by
  induction keys with
  | nil =>
    intro shown p hinv hs
    obtain ⟨hi, -, -⟩ := PagerInv_show_prompt lines shown p hinv
    simp only [input_loop, reduceCtorEq, false_implies, false_or, or_true, and_true, true_and]
    exact PagerInv_status lines _ _ hi
  | cons k ks ih =>
    intro shown p hinv hs
    obtain ⟨hi, hst, hc⟩ := PagerInv_show_prompt lines shown p hinv
    have hi1 := PagerInv_decoded lines (show_prompt shown p) ((show_prompt shown p).decoded + 1) hi
    cases k with
    | LineDown =>
      obtain ⟨hi2, hs2⟩ := PagerInv_line_down lines _ hn hi1
      simp only [input_loop]
      split_ifs with hlt
      · exact ih false _ hi2 (by rw [hs2]; simp only []; rw [hst, hs])
      · refine ⟨hi2, fun _ => by simp only []; omega, Or.inl ?_⟩
        rw [hs2]
        simp only []
        rw [hst, hs]
    | PageDown =>
      obtain ⟨hi2, -, hs2⟩ := PagerInv_print_page lines _ window_size hn hw1 hw
        (PagerInv_erase lines _ hi1)
      simp only [input_loop, page_down]
      split_ifs with hlt
      · exact ih false _ hi2 (by rw [hs2]; simp only []; rw [hst, hs])
      · refine ⟨hi2, fun _ => by simp only []; omega, Or.inl ?_⟩
        rw [hs2]
        simp only []
        rw [hst, hs]
    | Quit =>
      simp only [input_loop, quit_key, reduceCtorEq, false_implies, false_or, true_or, or_true,
        and_true, true_and]
      exact PagerInv_status lines _ _ (PagerInv_erase lines _ hi1)
    | None =>
      simp only [input_loop]
      exact ih true _ hi1 (by simp only []; rw [hst, hs])

theorem pager_loop_done (lines : List String) (lines_sub : Int) (console_height : Nat → Int)
    (total_lines : Int) (fuel : Nat) (keys : List KeyAction) (p : Pager)
    (h : ¬ p.current_line < total_lines) :
    pager_loop lines lines_sub console_height total_lines fuel keys p =
      { p with status := Status.returned } := by
  cases fuel <;> simp only [pager_loop, if_neg h]

theorem page_size_bounds (height lines_sub : Int) :
    1 ≤ std_max 1 (int_sub height lines_sub) ∧ std_max 1 (int_sub height lines_sub) ≤ INT_MAX :=
  window_size_bounds height lines_sub

/-- The state the first pass of the outer loop hands to the loop test: the
invariant holds, and status `running` means the whole content is printed. -/
theorem first_pass_spec (lines : List String) (window_size : Int)
    (hn : (lines.length : Int) ≤ INT_MAX) (hw1 : 1 ≤ window_size) (hw : window_size ≤ INT_MAX)
    (keys : List KeyAction) (p : Pager) (hinv : PagerInv lines p) (hs : p.status = Status.running) :
    PagerInv lines
      (if (print_page lines (lines.length : Int) window_size p).current_line < (lines.length : Int)
        then input_loop lines (lines.length : Int) window_size keys false
          (print_page lines (lines.length : Int) window_size p)
        else (print_page lines (lines.length : Int) window_size p, keys)).1 ∧
    ((if (print_page lines (lines.length : Int) window_size p).current_line < (lines.length : Int)
        then input_loop lines (lines.length : Int) window_size keys false
          (print_page lines (lines.length : Int) window_size p)
        else (print_page lines (lines.length : Int) window_size p, keys)).1.status = Status.running →
      (lines.length : Int) ≤
        (if (print_page lines (lines.length : Int) window_size p).current_line < (lines.length : Int)
          then input_loop lines (lines.length : Int) window_size keys false
            (print_page lines (lines.length : Int) window_size p)
          else (print_page lines (lines.length : Int) window_size p, keys)).1.current_line) ∧
    ((if (print_page lines (lines.length : Int) window_size p).current_line < (lines.length : Int)
        then input_loop lines (lines.length : Int) window_size keys false
          (print_page lines (lines.length : Int) window_size p)
        else (print_page lines (lines.length : Int) window_size p, keys)).1.status = Status.running ∨
     (if (print_page lines (lines.length : Int) window_size p).current_line < (lines.length : Int)
        then input_loop lines (lines.length : Int) window_size keys false
          (print_page lines (lines.length : Int) window_size p)
        else (print_page lines (lines.length : Int) window_size p, keys)).1.status = Status.quit ∨
     (if (print_page lines (lines.length : Int) window_size p).current_line < (lines.length : Int)
        then input_loop lines (lines.length : Int) window_size keys false
          (print_page lines (lines.length : Int) window_size p)
        else (print_page lines (lines.length : Int) window_size p, keys)).1.status =
          Status.awaiting_input) := by
  obtain ⟨hi1, -, hs1⟩ := PagerInv_print_page lines p window_size hn hw1 hw hinv
  split_ifs with hlt
  · exact input_loop_spec lines window_size hn hw1 hw keys false _ hi1 (by rw [hs1, hs])
  · exact ⟨hi1, fun _ => by simp only []; omega, Or.inl (by simp only []; rw [hs1, hs])⟩

/-- The body of the outer loop of `more_pager` runs at most once: whenever the
inner loops are left through their condition, the outer condition fails too. -/
theorem pager_loop_eq_pager_once (lines : List String) (lines_sub : Int)
    (console_height : Nat → Int) (fuel : Nat) (keys : List KeyAction) (p : Pager)
    (hn : (lines.length : Int) ≤ INT_MAX) (hinv : PagerInv lines p)
    (hs : p.status = Status.running) :
    pager_loop lines lines_sub console_height (lines.length : Int) (fuel + 1) keys p =
      pager_once lines lines_sub console_height (lines.length : Int) keys p := by
  obtain ⟨hw1, hw⟩ := page_size_bounds (console_height p.decoded) lines_sub
  obtain ⟨-, hrun, -⟩ := first_pass_spec lines _ hn hw1 hw keys p hinv hs
  simp only [pager_loop, pager_once]
  by_cases hlt : p.current_line < (lines.length : Int)
  · rw [if_pos hlt, if_pos hlt]
    generalize (if (print_page lines (lines.length : Int)
        (std_max 1 (int_sub (console_height p.decoded) lines_sub)) p).current_line <
          (lines.length : Int)
      then input_loop lines (lines.length : Int)
        (std_max 1 (int_sub (console_height p.decoded) lines_sub)) keys false
        (print_page lines (lines.length : Int)
          (std_max 1 (int_sub (console_height p.decoded) lines_sub)) p)
      else (print_page lines (lines.length : Int)
        (std_max 1 (int_sub (console_height p.decoded) lines_sub)) p, keys)) = r at hrun ⊢
    by_cases hr : r.1.status = Status.running
    · rw [if_pos hr, if_pos hr]
      exact pager_loop_done _ _ _ _ _ _ _ (by have := hrun hr; omega)
    · rw [if_neg hr, if_neg hr]
  · rw [if_neg hlt, if_neg hlt]

/-- The state `more_pager` starts from. -/
theorem PagerInv_initial (lines : List String) :
    PagerInv lines { current_line := 0, output := [], decoded := 0, status := Status.running } :=
  ⟨le_refl _, Int.natCast_nonneg _, rfl⟩

theorem more_pager_eq_pager_once (lines : List String) (lines_sub : Int)
    (console_height : Nat → Int) (keys : List KeyAction)
    (hn : (lines.length : Int) ≤ INT_MAX) :
    more_pager lines lines_sub console_height keys =
      pager_once lines lines_sub console_height (lines.length : Int) keys
        { current_line := 0, output := [], decoded := 0, status := Status.running } := by
  unfold more_pager
  rw [size_to_int_of_le hn]
  rcases Nat.eq_zero_or_pos lines.length with h0 | hpos
  · have hlt : ¬ ((0 : Int) < (lines.length : Int)) := by omega
    rw [pager_loop_done _ _ _ _ _ _ _ hlt]
    simp only [pager_once, if_neg hlt]
  · obtain ⟨k, hk⟩ := Nat.exists_eq_succ_of_ne_zero (Nat.pos_iff_ne_zero.mp hpos)
    rw [show pager_loop lines lines_sub console_height (lines.length : Int) lines.length keys
        { current_line := 0, output := [], decoded := 0, status := Status.running } =
      pager_loop lines lines_sub console_height (lines.length : Int) (k + 1) keys
        { current_line := 0, output := [], decoded := 0, status := Status.running } by rw [hk]]
    exact pager_loop_eq_pager_once lines lines_sub console_height k keys _ hn
      (PagerInv_initial lines) rfl

theorem pager_once_spec (lines : List String) (lines_sub : Int) (console_height : Nat → Int)
    (keys : List KeyAction) (p : Pager)
    (hn : (lines.length : Int) ≤ INT_MAX) (hinv : PagerInv lines p)
    (hs : p.status = Status.running) :
    PagerInv lines (pager_once lines lines_sub console_height (lines.length : Int) keys p) ∧
    ((pager_once lines lines_sub console_height (lines.length : Int) keys p).status =
        Status.returned →
      (lines.length : Int) ≤
        (pager_once lines lines_sub console_height (lines.length : Int) keys p).current_line) ∧
    ((pager_once lines lines_sub console_height (lines.length : Int) keys p).status =
        Status.returned ∨
      (pager_once lines lines_sub console_height (lines.length : Int) keys p).status =
        Status.quit ∨
      (pager_once lines lines_sub console_height (lines.length : Int) keys p).status =
        Status.awaiting_input) := by
  obtain ⟨hw1, hw⟩ := page_size_bounds (console_height p.decoded) lines_sub
  obtain ⟨hi, hrun, hst⟩ := first_pass_spec lines _ hn hw1 hw keys p hinv hs
  simp only [pager_once]
  by_cases hlt : p.current_line < (lines.length : Int)
  · rw [if_pos hlt]
    generalize (if (print_page lines (lines.length : Int)
        (std_max 1 (int_sub (console_height p.decoded) lines_sub)) p).current_line <
          (lines.length : Int)
      then input_loop lines (lines.length : Int)
        (std_max 1 (int_sub (console_height p.decoded) lines_sub)) keys false
        (print_page lines (lines.length : Int)
          (std_max 1 (int_sub (console_height p.decoded) lines_sub)) p)
      else (print_page lines (lines.length : Int)
        (std_max 1 (int_sub (console_height p.decoded) lines_sub)) p, keys)) = r at hi hrun hst ⊢
    by_cases hr : r.1.status = Status.running
    · rw [if_pos hr]
      exact ⟨PagerInv_status lines _ _ hi, fun _ => hrun hr, Or.inl rfl⟩
    · rw [if_neg hr]
      rcases hst with h | h | h
      · exact absurd h hr
      · exact ⟨hi, fun h2 => by rw [h] at h2; exact absurd h2 (by decide), Or.inr (Or.inl h)⟩
      · exact ⟨hi, fun h2 => by rw [h] at h2; exact absurd h2 (by decide), Or.inr (Or.inr h)⟩
  · rw [if_neg hlt]
    exact ⟨PagerInv_status lines _ _ hinv, fun _ => by simp only []; omega, Or.inl rfl⟩

/-- C10: whatever the terminal heights and the decoded keys, the content lines
written by `more_pager` are the first `current_line` lines of the content, in
order, so they form an initial segment of it; `current_line` stays between 0
and the number of lines; the run ends returned, quit or blocked on the next
key; and when `more_pager` returns without a `Quit`, everything was written. -/
theorem more_pager_prints_initial_segment (lines : List String) (lines_sub : Int)
    (console_height : Nat → Int) (keys : List KeyAction)
    (hn : (lines.length : Int) ≤ INT_MAX) :
    printed_lines (more_pager lines lines_sub console_height keys).output <+: lines ∧
    printed_lines (more_pager lines lines_sub console_height keys).output =
      lines.take (more_pager lines lines_sub console_height keys).current_line.toNat ∧
    0 ≤ (more_pager lines lines_sub console_height keys).current_line ∧
    (more_pager lines lines_sub console_height keys).current_line ≤ size_to_int lines.length ∧
    ((more_pager lines lines_sub console_height keys).status = Status.returned →
      printed_lines (more_pager lines lines_sub console_height keys).output = lines) ∧
    ((more_pager lines lines_sub console_height keys).status = Status.returned ∨
      (more_pager lines lines_sub console_height keys).status = Status.quit ∨
      (more_pager lines lines_sub console_height keys).status = Status.awaiting_input) := by
  rw [more_pager_eq_pager_once lines lines_sub console_height keys hn, size_to_int_of_le hn]
  obtain ⟨⟨h0, h1, hp⟩, hret, hst⟩ := pager_once_spec lines lines_sub console_height keys _ hn
    (PagerInv_initial lines) rfl
  refine ⟨?_, hp, h0, h1, ?_, hst⟩
  · rw [hp]
    exact ⟨_, List.take_append_drop _ _⟩
  · intro h
    rw [hp]
    exact List.take_of_length_le (by have := hret h; omega)

/-- The pager reads the terminal height once, before the first page: two
terminals that agree when the pager starts give the same run, however they
are resized afterwards. -/
theorem more_pager_reads_height_once (lines : List String) (lines_sub : Int)
    (h1 h2 : Nat → Int) (keys : List KeyAction)
    (hn : (lines.length : Int) ≤ INT_MAX) (h : h1 0 = h2 0) :
    more_pager lines lines_sub h1 keys = more_pager lines lines_sub h2 keys := by
  rw [more_pager_eq_pager_once lines lines_sub h1 keys hn,
    more_pager_eq_pager_once lines lines_sub h2 keys hn]
  simp only [pager_once, h]

/-- C8 at a concrete input: ten lines, two reserved lines, a terminal of 5 rows
that is resized to 7 rows before the first key, and the key `PageDown`. The
first page has 3 lines; at 7 rows a page has 5 lines and 7 lines remain, so 5
lines are due, but `PageDown` writes 3 lines: the page size of the 5-row
terminal. -/
theorem more_pager_page_size_is_stale :
    printed_lines (more_pager ten_lines 2 resized_height []).output = ["l0", "l1", "l2"] ∧
    (more_pager ten_lines 2 resized_height []).current_line = 3 ∧
    std_min (page_size (resized_height 1) 2) (int_sub (size_to_int ten_lines.length) 3) = 5 ∧
    printed_lines (more_pager ten_lines 2 resized_height [KeyAction.PageDown]).output =
      ["l0", "l1", "l2", "l3", "l4", "l5"] ∧
    (more_pager ten_lines 2 resized_height [KeyAction.PageDown]).current_line = 6 := by
  with_unfolding_all decide

/-! ## Concrete instances -/

/-- C1 at 100 lines, a terminal of 21 rows, position 70 and `PageDown`:
`70 + 20` exceeds `max_scroll = 80`, and the position stays inside `[0, 80]`. -/
theorem OnEvent_position_in_range_witness :
    (0 ≤ size_to_int hundred_lines.length ∧ (0 : Int) ≤ 70 ∧
      (70 : Int) ≤ max_scroll (size_to_int hundred_lines.length) (window_size 21 1)) ∧
    (0 ≤ ((ScrollFrame.mk 70 1 hundred_lines).OnEvent 21 Event.PageDown).frame.scroll_ ∧
      ((ScrollFrame.mk 70 1 hundred_lines).OnEvent 21 Event.PageDown).frame.scroll_ ≤
        max_scroll (size_to_int hundred_lines.length) (window_size 21 1)) :=
  ⟨⟨by decide, by decide, by with_unfolding_all decide⟩,
    OnEvent_position_in_range (ScrollFrame.mk 70 1 hundred_lines) 21 Event.PageDown (by decide)
      (by decide) (by with_unfolding_all decide)⟩

/-- C4 at ten lines, a terminal of 5 rows and position 3 (below `max_scroll = 6`),
and at position 0. -/
theorem ArrowDown_then_ArrowUp_witness :
    (((ScrollFrame.mk 3 1 ten_lines).OnEvent 5 Event.ArrowDown).frame.OnEvent 5
        Event.ArrowUp).frame.scroll_ = 3 ∧
    ((ScrollFrame.mk 0 1 ten_lines).OnEvent 5 Event.ArrowUp).frame.scroll_ = 0 :=
  ⟨(ArrowDown_then_ArrowUp (ScrollFrame.mk 3 1 ten_lines) 5 (by decide)).1 (by decide)
      (by with_unfolding_all decide),
    (ArrowDown_then_ArrowUp (ScrollFrame.mk 0 1 ten_lines) 5 (by decide)).2 rfl⟩

/-- C5 at 100 lines and a window of 20 lines (a terminal of 21 rows), after five
`PageDown` events. -/
theorem PageDown_pages_witness :
    ((hundred_lines.length : Int) ≤ INT_MAX ∧ (ScrollFrame.init hundred_lines 1).lines_sub_ = 1 ∧
      (ScrollFrame.init hundred_lines 1).scroll_ = 0) ∧
    ((ScrollFrame.init hundred_lines 1).OnEvents 21 (List.replicate 5 Event.PageDown)).scroll_ =
      min (((5 : Nat) : Int) * window_size 21 1)
        (max 0 ((hundred_lines.length : Int) - window_size 21 1)) :=
  ⟨⟨by decide, rfl, rfl⟩,
    (PageDown_pages (ScrollFrame.init hundred_lines 1) 21 5 (by decide) rfl rfl).1⟩

/-- The scenario of 100 lines in a window of 20: the first slice is
`lines[0:20]`, one `PageDown` gives position 20 and `lines[20:40]`, four more
give position 80 and `lines[80:100]`. -/
theorem hundred_lines_scenario :
    window_size 21 1 = 20 ∧
    ((ScrollFrame.init hundred_lines 1).Render 21).visible_view = (hundred_lines.take 20).drop 0 ∧
    ((ScrollFrame.init hundred_lines 1).OnEvents 21 [Event.PageDown]).scroll_ = 20 ∧
    (((ScrollFrame.init hundred_lines 1).OnEvents 21 [Event.PageDown]).Render 21).visible_view =
      (hundred_lines.take 40).drop 20 ∧
    ((ScrollFrame.init hundred_lines 1).OnEvents 21 (List.replicate 5 Event.PageDown)).scroll_ =
      80 ∧
    (((ScrollFrame.init hundred_lines 1).OnEvents 21 (List.replicate 5 Event.PageDown)).Render
      21).visible_view = (hundred_lines.take 100).drop 80 := by
  with_unfolding_all decide

/-- C6 at five lines and a window of 20 lines (a terminal of 21 rows). -/
theorem short_content_does_not_scroll_witness :
    (0 ≤ size_to_int five_lines.length ∧
      size_to_int five_lines.length ≤ window_size 21 1 ∧
      size_to_int five_lines.length ≤ ((ScrollFrame.init five_lines 1).Render 21).window_size) ∧
    (max_scroll (size_to_int five_lines.length) (window_size 21 1) = 0 ∧
      (∀ event : Event, (ScrollFrame.init five_lines 1).scroll_ = 0 →
        ((ScrollFrame.init five_lines 1).OnEvent 21 event).frame.scroll_ = 0) ∧
      ((ScrollFrame.init five_lines 1).Render 21).show_up_arrow = false ∧
      ((ScrollFrame.init five_lines 1).Render 21).show_down_arrow = false ∧
      ((ScrollFrame.init five_lines 1).Render 21).visible_lines =
        ((ScrollFrame.init five_lines 1).Render 21).visible_view) :=
  ⟨⟨by decide, by with_unfolding_all decide, by with_unfolding_all decide⟩,
    short_content_does_not_scroll (ScrollFrame.init five_lines 1) 21 (by decide)
      (by with_unfolding_all decide) (by with_unfolding_all decide)⟩

/-- C9 at ten lines, a terminal of 5 rows and position 3: both directions are
possible and every movement entry of the legend is highlighted. -/
theorem legend_highlights_possible_moves_witness :
    highlighted ((ScrollFrame.mk 3 1 ten_lines).Render 5).tooltip "PgUp" = true ∧
    highlighted ((ScrollFrame.mk 3 1 ten_lines).Render 5).tooltip "End" = true :=
  ⟨(((legend_highlights_possible_moves (ScrollFrame.mk 3 1 ten_lines) 5 (by decide) rfl
      (by decide) (by with_unfolding_all decide)).1 "PgUp" (by decide)).2).mpr (by decide),
    (((legend_highlights_possible_moves (ScrollFrame.mk 3 1 ten_lines) 5 (by decide) rfl
      (by decide) (by with_unfolding_all decide)).2 "End" (by decide)).2).mpr
        (by with_unfolding_all decide)⟩

/-- C10 at ten lines, the keys `PageDown`, an unrecognised key, `LineDown`, `Quit`,
and a terminal resized from 5 to 7 rows. -/
theorem more_pager_prints_initial_segment_witness :
    (ten_lines.length : Int) ≤ INT_MAX ∧
    printed_lines (more_pager ten_lines 2 resized_height
      [KeyAction.PageDown, KeyAction.None, KeyAction.LineDown, KeyAction.Quit]).output <+:
        ten_lines :=
  ⟨by decide,
    (more_pager_prints_initial_segment ten_lines 2 resized_height
      [KeyAction.PageDown, KeyAction.None, KeyAction.LineDown, KeyAction.Quit] (by decide)).1⟩

/-- Runs of the pager on ten lines: pressing `Enter` until the end returns with
the whole content written, and `Quit` stops after the lines written so far. -/
theorem more_pager_runs :
    (more_pager ten_lines 2 resized_height
      [KeyAction.PageDown, KeyAction.PageDown, KeyAction.PageDown]).status = Status.returned ∧
    printed_lines (more_pager ten_lines 2 resized_height
      [KeyAction.PageDown, KeyAction.PageDown, KeyAction.PageDown]).output = ten_lines ∧
    (more_pager ten_lines 2 resized_height
      [KeyAction.PageDown, KeyAction.None, KeyAction.LineDown, KeyAction.Quit]).status =
        Status.quit ∧
    printed_lines (more_pager ten_lines 2 resized_height
      [KeyAction.PageDown, KeyAction.None, KeyAction.LineDown, KeyAction.Quit]).output =
        ["l0", "l1", "l2", "l3", "l4", "l5", "l6"] := by
  with_unfolding_all decide

end Scrollmore
